import Mathlib

/-!
MCP23008 driver: register model and pin/port configuration

A shallow embedding of `src/MCP23008.h` and `src/MCP23008.cpp`.

* `MCP23008Register` is the register enumeration of the header.
* `TwoWire` stands for the bus object the driver holds a pointer to, together
  with the one chip behind it: the chip's eleven registers are plain bytes in
  memory.  Every call the driver makes on the bus is recorded in `wire`.
* The methods of `class MCP23008` become functions that take the bus state and
  return the new bus state (and the value read, where the method returns one).
* Every `readRegister`/`writeRegister` call is recorded in `accesses`.
* 8-bit quantities are natural numbers, reduced `% 256` where the C++ code
  converts to `uint8_t`; an argument of type `uint8_t` is a natural number that
  the caller keeps below 256.
-/

/-! ## Platform constants and bit macros (Arduino.h) -/

/-- Arduino pin mode `INPUT` (the header's comment: "INPUT = 0"). -/
def INPUT : Nat := 0

/-- Arduino pin mode `OUTPUT` (the header's comment: "OUTPUT = 1"). -/
def OUTPUT : Nat := 1

/-- Arduino pin mode `INPUT_PULLUP`. -/
def INPUT_PULLUP : Nat := 2

/-- Arduino logic level `HIGH` (the header: "1 = Logic-high"). -/
def HIGH : Nat := 1

/-- Arduino logic level `LOW` (the header: "0 = Logic-low"). -/
def LOW : Nat := 0

/-- The interrupt trigger constants `CHANGE`, `FALLING`, `RISING` of Arduino.h.
Their values differ between Arduino cores, so they are a parameter of
`MCP23008.interrupt`.  Being the labels of one `switch` they are pairwise
distinct, and being passed as the `uint8_t mode` each fits a byte. -/
structure TriggerModes where
  CHANGE : Nat
  FALLING : Nat
  RISING : Nat
  distinct : CHANGE ≠ FALLING ∧ CHANGE ≠ RISING ∧ FALLING ≠ RISING
  bytes : CHANGE < 256 ∧ FALLING < 256 ∧ RISING < 256

/-- The trigger constants of the AVR core: CHANGE = 1, FALLING = 2, RISING = 3. -/
def TriggerModes.avr : TriggerModes := ⟨1, 2, 3, by decide, by decide⟩

/-- Arduino macro `bitSet(value, bit)`, that is `((value) |= (1UL << (bit)))`, on a
`uint8_t` variable: the shift is done on a 32-bit `unsigned long`, the result
is stored back into 8 bits.  (For `bit ≥ 32` the C shift is undefined.) -/
def bitSet (value bit : Nat) : Nat :=
  (value ||| ((1 <<< bit) % 2 ^ 32)) % 256

/-- Arduino macro `bitClear(value, bit)`, that is `((value) &= ~(1UL << (bit)))`, on a
`uint8_t` variable: `~` is the 32-bit complement, the result is stored back
into 8 bits.  (For `bit ≥ 32` the C shift is undefined.) -/
def bitClear (value bit : Nat) : Nat :=
  (value &&& (2 ^ 32 - 1 - (1 <<< bit) % 2 ^ 32)) % 256

/-- Arduino macro `bitRead(value, bit)`, that is `(((value) >> (bit)) & 0x01)`. -/
def bitRead (value bit : Nat) : Nat :=
  (value >>> bit) &&& 0x01

/-! ## Registers -/

/-- Registers addresses (`enum class MCP23008Register : uint8_t`). -/
inductive MCP23008Register where
  | IODIR
  | IPOL
  | GPINTEN
  | DEFVAL
  | INTCON
  | IOCON
  | GPPU
  | INTF
  | INTCAP
  | GPIO
  | OLAT
  deriving DecidableEq, Repr

namespace MCP23008Register

/-- The enumerator's value, `static_cast<uint8_t>(reg)`. -/
def toUInt8 : MCP23008Register → Nat
  | IODIR => 0x00
  | IPOL => 0x01
  | GPINTEN => 0x02
  | DEFVAL => 0x03
  | INTCON => 0x04
  | IOCON => 0x05
  | GPPU => 0x06
  | INTF => 0x07
  | INTCAP => 0x08
  | GPIO => 0x09
  | OLAT => 0x0A

/-- The register an address byte selects on the chip, if any. -/
def ofUInt8 : Nat → Option MCP23008Register
  | 0x00 => some IODIR
  | 0x01 => some IPOL
  | 0x02 => some GPINTEN
  | 0x03 => some DEFVAL
  | 0x04 => some INTCON
  | 0x05 => some IOCON
  | 0x06 => some GPPU
  | 0x07 => some INTF
  | 0x08 => some INTCAP
  | 0x09 => some GPIO
  | 0x0A => some OLAT
  | _ => none

end MCP23008Register

/-- The chip's state: its eleven 8-bit registers, each a plain byte. -/
structure Registers where
  IODIR : Nat
  IPOL : Nat
  GPINTEN : Nat
  DEFVAL : Nat
  INTCON : Nat
  IOCON : Nat
  GPPU : Nat
  INTF : Nat
  INTCAP : Nat
  GPIO : Nat
  OLAT : Nat
  deriving DecidableEq, Repr

namespace Registers

/-- The content of register `r`. -/
def get (c : Registers) : MCP23008Register → Nat
  | MCP23008Register.IODIR => c.IODIR
  | MCP23008Register.IPOL => c.IPOL
  | MCP23008Register.GPINTEN => c.GPINTEN
  | MCP23008Register.DEFVAL => c.DEFVAL
  | MCP23008Register.INTCON => c.INTCON
  | MCP23008Register.IOCON => c.IOCON
  | MCP23008Register.GPPU => c.GPPU
  | MCP23008Register.INTF => c.INTF
  | MCP23008Register.INTCAP => c.INTCAP
  | MCP23008Register.GPIO => c.GPIO
  | MCP23008Register.OLAT => c.OLAT

/-- Register `r` overwritten with `v`, the other ten untouched. -/
def set (c : Registers) (r : MCP23008Register) (v : Nat) : Registers :=
  match r with
  | MCP23008Register.IODIR => { c with IODIR := v }
  | MCP23008Register.IPOL => { c with IPOL := v }
  | MCP23008Register.GPINTEN => { c with GPINTEN := v }
  | MCP23008Register.DEFVAL => { c with DEFVAL := v }
  | MCP23008Register.INTCON => { c with INTCON := v }
  | MCP23008Register.IOCON => { c with IOCON := v }
  | MCP23008Register.GPPU => { c with GPPU := v }
  | MCP23008Register.INTF => { c with INTF := v }
  | MCP23008Register.INTCAP => { c with INTCAP := v }
  | MCP23008Register.GPIO => { c with GPIO := v }
  | MCP23008Register.OLAT => { c with OLAT := v }

/-- The byte at chip address `a`; an address outside the map reads as 0. -/
def load (c : Registers) (a : Nat) : Nat :=
  match MCP23008Register.ofUInt8 a with
  | some r => c.get r
  | none => 0

/-- Byte `v` stored at chip address `a`; an address outside the map is ignored. -/
def store (c : Registers) (a : Nat) (v : Nat) : Registers :=
  match MCP23008Register.ofUInt8 a with
  | some r => c.set r v
  | none => c

/-- The chip's power-on defaults: IODIR = 0xFF, every other register 0x00. -/
def powerOn : Registers :=
  { IODIR := 0xFF, IPOL := 0, GPINTEN := 0, DEFVAL := 0, INTCON := 0, IOCON := 0,
    GPPU := 0, INTF := 0, INTCAP := 0, GPIO := 0, OLAT := 0 }

end Registers

/-! ## The transport and the simulated chip behind it -/

/-- One call made on the bus object. -/
inductive BusEvent where
  | beginTransmission (address : Nat)
  | write (data : Nat)
  | endTransmission
  | requestFrom (address quantity : Nat)
  | read
  deriving DecidableEq, Repr

/-- One call of `readRegister` or `writeRegister`. -/
inductive Access where
  | read (reg : MCP23008Register)
  | write (reg : MCP23008Register) (value : Nat)
  deriving DecidableEq, Repr

/-- A register access without the value carried: its kind and its register. -/
inductive AccessKind where
  | read (reg : MCP23008Register)
  | write (reg : MCP23008Register)
  deriving DecidableEq, Repr

/-- The kind and register of an access. -/
def Access.kind : Access → AccessKind
  | Access.read r => AccessKind.read r
  | Access.write r _ => AccessKind.write r

/-- Modelled from the spec: the transport service (`TwoWire` of Wire.h, whose
code is not under src/) with the simulated chip of the spec's section 8 behind
it, "a simulated transport that models the chip's 11 registers as an in-memory
byte array".  The transport can (a) begin an addressed write transaction,
(b) queue bytes, (c) end the transaction, which transfers the queued bytes,
(d) begin an addressed read of N bytes and (e) hand out each received byte.

* `chip`: the register file;
* `pointer`: the chip's register address pointer, set by the first byte of a
  write transaction;
* `txBuffer`: bytes queued since `beginTransmission`;
* `rxBuffer`: bytes received by `requestFrom` and not yet read;
* `wire`: every call made on the bus, oldest first;
* `accesses`: every `readRegister`/`writeRegister` call of the driver, oldest
  first (an observation only: nothing reads it). -/
structure TwoWire where
  chip : Registers
  pointer : Nat
  txBuffer : List Nat
  rxBuffer : List Nat
  wire : List BusEvent
  accesses : List Access
  deriving DecidableEq, Repr

namespace TwoWire

/-- A bus whose chip has just been powered on, with nothing transferred yet. -/
def powerOn : TwoWire :=
  { chip := Registers.powerOn, pointer := 0, txBuffer := [], rxBuffer := [],
    wire := [], accesses := [] }

/-- `beginTransmission(address)`: opens a write transaction with an empty queue. -/
def beginTransmission (address : Nat) (w : TwoWire) : TwoWire :=
  { w with txBuffer := [], wire := w.wire ++ [BusEvent.beginTransmission (address % 256)] }

/-- `write(data)`: queues one byte. -/
def write (data : Nat) (w : TwoWire) : TwoWire :=
  { w with txBuffer := w.txBuffer ++ [data % 256],
           wire := w.wire ++ [BusEvent.write (data % 256)] }

/-- `endTransmission()`: transfers the queue.  The chip takes the first byte as
the register address and stores each following byte at that address. -/
def endTransmission (w : TwoWire) : TwoWire :=
  match w.txBuffer with
  | [] => { w with wire := w.wire ++ [BusEvent.endTransmission] }
  | a :: vs =>
    { w with chip := vs.foldl (fun c v => c.store a v) w.chip,
             pointer := a,
             txBuffer := [],
             wire := w.wire ++ [BusEvent.endTransmission] }

/-- `requestFrom(address, quantity)`: the chip sends `quantity` bytes from the
register its address pointer selects. -/
def requestFrom (address quantity : Nat) (w : TwoWire) : TwoWire :=
  { w with rxBuffer := List.replicate (quantity % 256) (w.chip.load w.pointer % 256),
           wire := w.wire ++ [BusEvent.requestFrom (address % 256) (quantity % 256)] }

/-- `read()`: the next received byte, or -1 when none is left. -/
def read (w : TwoWire) : Int × TwoWire :=
  match w.rxBuffer with
  | [] => (-1, { w with wire := w.wire ++ [BusEvent.read] })
  | b :: rest => ((b : Int), { w with rxBuffer := rest, wire := w.wire ++ [BusEvent.read] })

/-- Records one register access of the driver. -/
def observe (a : Access) (w : TwoWire) : TwoWire :=
  { w with accesses := w.accesses ++ [a] }

end TwoWire

/-! ## The driver (`class MCP23008`) -/

/-- Controls if the two interrupt pins mirror each other
(`enum class MCP23008InterruptMode : uint8_t`). -/
inductive MCP23008InterruptMode where
  | Separated
  | Or
  deriving DecidableEq, Repr

/-- The enumerator's value, `static_cast<uint8_t>(intMode)`. -/
def MCP23008InterruptMode.toUInt8 : MCP23008InterruptMode → Nat
  | Separated => 0
  | Or => 0b01000000

/-- The driver object: the address of the chip on the bus.  (The member `_bus`
is the `TwoWire` state the methods take and return.) -/
structure MCP23008 where
  _deviceAddr : Nat
  deriving DecidableEq, Repr

namespace MCP23008

/-- Writes a single register value: the call is recorded, then the register
address and the value are sent in one write transaction. -/
def writeRegister (self : MCP23008) (reg : MCP23008Register) (value : Nat)
    (bus : TwoWire) : TwoWire :=
  let bus := bus.observe (Access.write reg (value % 256))
  let bus := bus.beginTransmission self._deviceAddr
  let bus := bus.write reg.toUInt8
  let bus := bus.write value
  bus.endTransmission

/-- Reads a single register value: the call is recorded, the register address is
sent in a write transaction, one byte is requested and the byte the bus hands
out is returned as `uint8_t`. -/
def readRegister (self : MCP23008) (reg : MCP23008Register) (bus : TwoWire) :
    Nat × TwoWire :=
  let bus := bus.observe (Access.read reg)
  let bus := bus.beginTransmission self._deviceAddr
  let bus := bus.write reg.toUInt8
  let bus := bus.endTransmission
  let bus := bus.requestFrom self._deviceAddr 1
  let r := bus.read
  (Int.toNat (r.1 % 256), r.2)

/-- Initializes the chip with the default configuration. -/
def init (self : MCP23008) (bus : TwoWire) : TwoWire :=
  let bus := self.writeRegister MCP23008Register.IOCON 0b00100000 bus
  self.writeRegister MCP23008Register.GPPU 0xFF bus

/-- Controls the pins direction on a whole port at once. -/
def portMode (self : MCP23008) (directions pullups inverted : Nat) (bus : TwoWire) :
    TwoWire :=
  let bus := self.writeRegister MCP23008Register.IODIR directions bus
  let bus := self.writeRegister MCP23008Register.GPPU pullups bus
  self.writeRegister MCP23008Register.IPOL inverted bus

/-- Controls a single pin direction. -/
def pinMode (self : MCP23008) (pin mode : Nat) (inverted : Bool) (bus : TwoWire) :
    TwoWire :=
  let iodirreg := MCP23008Register.IODIR
  let pullupreg := MCP23008Register.GPPU
  let polreg := MCP23008Register.IPOL
  let r := self.readRegister iodirreg bus
  let iodir := if mode = INPUT ∨ mode = INPUT_PULLUP then bitSet r.1 pin else bitClear r.1 pin
  let r := self.readRegister pullupreg r.2
  let pull := if mode = INPUT_PULLUP then bitSet r.1 pin else bitClear r.1 pin
  let r := self.readRegister polreg r.2
  let pol := if inverted then bitSet r.1 pin else bitClear r.1 pin
  let bus := self.writeRegister iodirreg iodir r.2
  let bus := self.writeRegister pullupreg pull bus
  self.writeRegister polreg pol bus

/-- Writes a single pin state. -/
def digitalWrite (self : MCP23008) (pin state : Nat) (bus : TwoWire) : TwoWire :=
  let gpioreg := MCP23008Register.GPIO
  let r := self.readRegister gpioreg bus
  let gpio := if state = HIGH then bitSet r.1 pin else bitClear r.1 pin
  self.writeRegister gpioreg gpio r.2

/-- Reads a single pin state. -/
def digitalRead (self : MCP23008) (pin : Nat) (bus : TwoWire) : Nat × TwoWire :=
  let gpioreg := MCP23008Register.GPIO
  let r := self.readRegister gpioreg bus
  if bitRead r.1 pin ≠ 0 then (HIGH, r.2) else (LOW, r.2)

/-- Writes pins state to a whole port. -/
def writePort (self : MCP23008) (value : Nat) (bus : TwoWire) : TwoWire :=
  self.writeRegister MCP23008Register.GPIO value bus

/-- Writes pins state to both ports. -/
def write (self : MCP23008) (value : Nat) (bus : TwoWire) : TwoWire :=
  self.writeRegister MCP23008Register.GPIO value bus

/-- Reads pins state for a whole port. -/
def readPort (self : MCP23008) (bus : TwoWire) : Nat × TwoWire :=
  self.readRegister MCP23008Register.GPIO bus

/-- Reads pins state for both ports. -/
def read (self : MCP23008) (bus : TwoWire) : Nat × TwoWire :=
  self.readRegister MCP23008Register.GPIO bus

/-- Controls how the interrupt pins act with each other (the IOCON.MIRROR bit).
The complement `~` is taken on the promoted `int` and the result stored back
into 8 bits. -/
def interruptMode (self : MCP23008) (intMode : MCP23008InterruptMode) (bus : TwoWire) :
    TwoWire :=
  let r := self.readRegister MCP23008Register.IOCON bus
  let iocon :=
    if intMode = MCP23008InterruptMode.Or then
      (r.1 ||| MCP23008InterruptMode.Or.toUInt8) % 256
    else
      (r.1 &&& (2 ^ 32 - 1 - MCP23008InterruptMode.Or.toUInt8)) % 256
  self.writeRegister MCP23008Register.IOCON iocon r.2

/-- Configures interrupt registers using an Arduino-like API.
`mode` can be one of CHANGE, FALLING or RISING. -/
def interrupt (self : MCP23008) (k : TriggerModes) (mode : Nat) (bus : TwoWire) :
    TwoWire :=
  let defvalreg := MCP23008Register.DEFVAL
  let intconreg := MCP23008Register.INTCON
  let bus := self.writeRegister MCP23008Register.GPINTEN 0xFF bus
  if mode = k.CHANGE then
    self.writeRegister intconreg 0 bus
  else if mode = k.FALLING then
    let bus := self.writeRegister intconreg 0xFF bus
    self.writeRegister defvalreg 0xFF bus
  else if mode = k.RISING then
    let bus := self.writeRegister intconreg 0xFF bus
    self.writeRegister defvalreg 0x00 bus
  else
    bus

/-- Disable interrupts for the specified port. -/
def disableInterrupt (self : MCP23008) (bus : TwoWire) : TwoWire :=
  self.writeRegister MCP23008Register.GPINTEN 0x00 bus

/-- Clears interrupts on both ports: the value read is dropped. -/
def clearInterrupts (self : MCP23008) (bus : TwoWire) : TwoWire :=
  (self.readRegister MCP23008Register.INTCAP bus).2

end MCP23008


/-! ## Bit macros: which bits they leave set -/

theorem testBit_mod_256 (x i : Nat) :
    (x % 256).testBit i = (decide (i < 8) && x.testBit i) :=
  Nat.testBit_mod_two_pow x 8 i

theorem testBit_bitSet (value bit i : Nat) (hbit : bit < 32) :
    (bitSet value bit).testBit i
      = (decide (i < 8) && (value.testBit i || decide (bit = i))) := by
  unfold bitSet
  rw [testBit_mod_256, Nat.testBit_or, Nat.one_shiftLeft,
    Nat.mod_eq_of_lt (Nat.pow_lt_pow_right (by decide) hbit), Nat.testBit_two_pow]

theorem testBit_bitClear (value bit i : Nat) (hbit : bit < 32) :
    (bitClear value bit).testBit i
      = (decide (i < 8) && (value.testBit i && !decide (bit = i))) := by
  unfold bitClear
  have hlt : 2 ^ bit < 2 ^ 32 := Nat.pow_lt_pow_right (by decide) hbit
  rw [testBit_mod_256, Nat.testBit_and, Nat.one_shiftLeft, Nat.mod_eq_of_lt hlt,
    Nat.sub_sub, Nat.add_comm 1, Nat.testBit_two_pow_sub_succ hlt, Nat.testBit_two_pow]
  by_cases h8 : i < 8
  · have : i < 32 := by omega
    simp [h8, this]
  · simp [h8]

theorem bitRead_eq (value bit : Nat) :
    bitRead value bit = if value.testBit bit then 1 else 0 := by
  unfold bitRead
  rw [Nat.and_one_is_mod, Nat.shiftRight_eq_div_pow, Nat.testBit_to_div_mod]
  by_cases h : value / 2 ^ bit % 2 = 1
  · simp [h]
  · simp [h]; omega

theorem bitSet_lt (value bit : Nat) : bitSet value bit < 256 :=
  Nat.mod_lt _ (by decide)

theorem bitClear_lt (value bit : Nat) : bitClear value bit < 256 :=
  Nat.mod_lt _ (by decide)

/-! ## Register file and register access -/

theorem MCP23008Register.ofUInt8_toUInt8 (r : MCP23008Register) :
    MCP23008Register.ofUInt8 (r.toUInt8 % 256) = some r := by
  cases r <;> rfl

theorem Registers.get_set (c : Registers) (r r' : MCP23008Register) (v : Nat) :
    (c.set r v).get r' = if r' = r then v else c.get r' := by
  cases r <;> cases r' <;> rfl

theorem Registers.get_set_self (c : Registers) (r : MCP23008Register) (v : Nat) :
    (c.set r v).get r = v := by
  rw [Registers.get_set, if_pos rfl]

theorem Registers.get_set_of_ne (c : Registers) {r r' : MCP23008Register} (v : Nat)
    (h : r' ≠ r) : (c.set r v).get r' = c.get r' := by
  rw [Registers.get_set, if_neg h]

/-- What `writeRegister` does to the whole bus state. -/
theorem MCP23008.writeRegister_eq (self : MCP23008) (reg : MCP23008Register) (value : Nat)
    (bus : TwoWire) :
    self.writeRegister reg value bus =
      { chip := bus.chip.set reg (value % 256),
        pointer := reg.toUInt8 % 256,
        txBuffer := [],
        rxBuffer := bus.rxBuffer,
        wire := bus.wire ++ [BusEvent.beginTransmission (self._deviceAddr % 256),
          BusEvent.write (reg.toUInt8 % 256), BusEvent.write (value % 256),
          BusEvent.endTransmission],
        accesses := bus.accesses ++ [Access.write reg (value % 256)] } := by
  simp [MCP23008.writeRegister, TwoWire.observe, TwoWire.beginTransmission, TwoWire.write,
    TwoWire.endTransmission, Registers.store, MCP23008Register.ofUInt8_toUInt8]

/-- The value `readRegister` returns: the register's content, as a byte. -/
theorem MCP23008.readRegister_fst (self : MCP23008) (reg : MCP23008Register)
    (bus : TwoWire) :
    (self.readRegister reg bus).1 = bus.chip.get reg % 256 := by
  simp [MCP23008.readRegister, TwoWire.observe, TwoWire.beginTransmission, TwoWire.write,
    TwoWire.endTransmission, TwoWire.requestFrom, TwoWire.read, Registers.load,
    MCP23008Register.ofUInt8_toUInt8]
  omega

/-- What `readRegister` does to the whole bus state. -/
theorem MCP23008.readRegister_snd (self : MCP23008) (reg : MCP23008Register)
    (bus : TwoWire) :
    (self.readRegister reg bus).2 =
      { chip := bus.chip,
        pointer := reg.toUInt8 % 256,
        txBuffer := [],
        rxBuffer := [],
        wire := bus.wire ++ [BusEvent.beginTransmission (self._deviceAddr % 256),
          BusEvent.write (reg.toUInt8 % 256), BusEvent.endTransmission,
          BusEvent.requestFrom (self._deviceAddr % 256) 1, BusEvent.read],
        accesses := bus.accesses ++ [Access.read reg] } := by
  simp [MCP23008.readRegister, TwoWire.observe, TwoWire.beginTransmission, TwoWire.write,
    TwoWire.endTransmission, TwoWire.requestFrom, TwoWire.read]

/-- The register file after `pinMode`: IODIR, GPPU and IPOL rewritten from their
own prior bytes, the other eight registers as before. -/
theorem MCP23008.pinMode_chip (self : MCP23008) (pin mode : Nat) (inverted : Bool)
    (bus : TwoWire) :
    (self.pinMode pin mode inverted bus).chip =
      { bus.chip with
        IODIR := if mode = INPUT ∨ mode = INPUT_PULLUP then bitSet (bus.chip.IODIR % 256) pin
                 else bitClear (bus.chip.IODIR % 256) pin,
        GPPU := if mode = INPUT_PULLUP then bitSet (bus.chip.GPPU % 256) pin
                else bitClear (bus.chip.GPPU % 256) pin,
        IPOL := if inverted then bitSet (bus.chip.IPOL % 256) pin
                else bitClear (bus.chip.IPOL % 256) pin } := by
  simp only [MCP23008.pinMode, MCP23008.writeRegister_eq, MCP23008.readRegister_fst,
    MCP23008.readRegister_snd, Registers.set, Registers.get]
  split_ifs <;> simp [Nat.mod_eq_of_lt (bitSet_lt _ _), Nat.mod_eq_of_lt (bitClear_lt _ _)]

/-- C1: for every pin in 0..7 and every prior register state,
`pinMode(pin, INPUT_PULLUP, false)` leaves bit `pin` set in IODIR and in GPPU and
cleared in IPOL; every other bit of these three registers, and every other
register, keeps its prior value; and `pinMode(3, INPUT_PULLUP, false)` followed by
`pinMode(5, INPUT_PULLUP, false)` leaves pin 3's three bits as the first call set
them. -/
theorem pinMode_input_pullup_frame (self : MCP23008) (bus : TwoWire) (pin : Nat)
    (hpin : pin < 8) :
    ((self.pinMode pin INPUT_PULLUP false bus).chip.IODIR.testBit pin = true
      ∧ (self.pinMode pin INPUT_PULLUP false bus).chip.GPPU.testBit pin = true
      ∧ (self.pinMode pin INPUT_PULLUP false bus).chip.IPOL.testBit pin = false)
    ∧ (∀ j, j < 8 → j ≠ pin →
        (self.pinMode pin INPUT_PULLUP false bus).chip.IODIR.testBit j
            = bus.chip.IODIR.testBit j
          ∧ (self.pinMode pin INPUT_PULLUP false bus).chip.GPPU.testBit j
            = bus.chip.GPPU.testBit j
          ∧ (self.pinMode pin INPUT_PULLUP false bus).chip.IPOL.testBit j
            = bus.chip.IPOL.testBit j)
    ∧ (∀ r : MCP23008Register, r ≠ MCP23008Register.IODIR → r ≠ MCP23008Register.GPPU →
        r ≠ MCP23008Register.IPOL →
        (self.pinMode pin INPUT_PULLUP false bus).chip.get r = bus.chip.get r)
    ∧ ((self.pinMode 5 INPUT_PULLUP false (self.pinMode 3 INPUT_PULLUP false bus)).chip.IODIR.testBit 3
          = (self.pinMode 3 INPUT_PULLUP false bus).chip.IODIR.testBit 3
        ∧ (self.pinMode 5 INPUT_PULLUP false (self.pinMode 3 INPUT_PULLUP false bus)).chip.GPPU.testBit 3
          = (self.pinMode 3 INPUT_PULLUP false bus).chip.GPPU.testBit 3
        ∧ (self.pinMode 5 INPUT_PULLUP false (self.pinMode 3 INPUT_PULLUP false bus)).chip.IPOL.testBit 3
          = (self.pinMode 3 INPUT_PULLUP false bus).chip.IPOL.testBit 3) := by
  have h32 : pin < 32 := by omega
  refine ⟨?_, ?_, ?_, ?_⟩
  · simp [MCP23008.pinMode_chip, INPUT, INPUT_PULLUP, testBit_bitSet, testBit_bitClear,
      testBit_mod_256, h32, hpin]
  · intro j hj hne
    have hne' : ¬ pin = j := fun h => hne h.symm
    simp [MCP23008.pinMode_chip, INPUT, INPUT_PULLUP, testBit_bitSet, testBit_bitClear,
      testBit_mod_256, h32, hj, hne']
  · intro r h1 h2 h3
    cases r <;> simp_all [MCP23008.pinMode_chip, Registers.get]
  · simp [MCP23008.pinMode_chip, INPUT, INPUT_PULLUP, testBit_bitSet, testBit_bitClear,
      testBit_mod_256]

/-- On a freshly powered chip, `pinMode(3, INPUT_PULLUP, false)` sets bit 3 of GPPU. -/
theorem pinMode_input_pullup_frame_witness :
    ((⟨0x20⟩ : MCP23008).pinMode 3 INPUT_PULLUP false TwoWire.powerOn).chip.GPPU.testBit 3
      = true :=
  (pinMode_input_pullup_frame ⟨0x20⟩ TwoWire.powerOn 3 (by decide)).1.2.1


/-- C2: with the Arduino encoding INPUT = 0, OUTPUT = 1, INPUT_PULLUP = 2, for every
pin in 0..7, every `inverted` flag and every prior register state:
`pinMode(pin, OUTPUT, inverted)` clears bit `pin` of IODIR and of GPPU,
`pinMode(pin, INPUT, inverted)` sets bit `pin` of IODIR and clears bit `pin` of
GPPU; in both cases bit `pin` of IPOL becomes 1 exactly when `inverted` is true,
and all other bits of the three registers are unchanged. -/
theorem pinMode_output_input (self : MCP23008) (bus : TwoWire) (pin : Nat)
    (inverted : Bool) (hpin : pin < 8) :
    (INPUT = 0 ∧ OUTPUT = 1 ∧ INPUT_PULLUP = 2)
    ∧ ((self.pinMode pin OUTPUT inverted bus).chip.IODIR.testBit pin = false
      ∧ (self.pinMode pin OUTPUT inverted bus).chip.GPPU.testBit pin = false
      ∧ (self.pinMode pin OUTPUT inverted bus).chip.IPOL.testBit pin = inverted)
    ∧ ((self.pinMode pin INPUT inverted bus).chip.IODIR.testBit pin = true
      ∧ (self.pinMode pin INPUT inverted bus).chip.GPPU.testBit pin = false
      ∧ (self.pinMode pin INPUT inverted bus).chip.IPOL.testBit pin = inverted)
    ∧ (∀ mode, mode = OUTPUT ∨ mode = INPUT → ∀ j, j < 8 → j ≠ pin →
        (self.pinMode pin mode inverted bus).chip.IODIR.testBit j
            = bus.chip.IODIR.testBit j
          ∧ (self.pinMode pin mode inverted bus).chip.GPPU.testBit j
            = bus.chip.GPPU.testBit j
          ∧ (self.pinMode pin mode inverted bus).chip.IPOL.testBit j
            = bus.chip.IPOL.testBit j) := by
  have h32 : pin < 32 := by omega
  refine ⟨⟨rfl, rfl, rfl⟩, ?_, ?_, ?_⟩
  · cases inverted <;>
      simp [MCP23008.pinMode_chip, INPUT, OUTPUT, INPUT_PULLUP, testBit_bitSet,
        testBit_bitClear, testBit_mod_256, h32, hpin]
  · cases inverted <;>
      simp [MCP23008.pinMode_chip, INPUT, OUTPUT, INPUT_PULLUP, testBit_bitSet,
        testBit_bitClear, testBit_mod_256, h32, hpin]
  · intro mode hmode j hj hne
    have hne' : ¬ pin = j := fun h => hne h.symm
    rcases hmode with rfl | rfl <;> cases inverted <;>
      simp [MCP23008.pinMode_chip, INPUT, OUTPUT, INPUT_PULLUP, testBit_bitSet,
        testBit_bitClear, testBit_mod_256, h32, hj, hne']

/-- On a freshly powered chip, `pinMode(3, OUTPUT, true)` clears bit 3 of IODIR and
sets bit 3 of IPOL. -/
theorem pinMode_output_input_witness :
    ((⟨0x20⟩ : MCP23008).pinMode 3 OUTPUT true TwoWire.powerOn).chip.IODIR.testBit 3 = false
      ∧ ((⟨0x20⟩ : MCP23008).pinMode 3 OUTPUT true TwoWire.powerOn).chip.IPOL.testBit 3
        = true :=
  ⟨(pinMode_output_input ⟨0x20⟩ TwoWire.powerOn 3 true (by decide)).2.1.1,
   (pinMode_output_input ⟨0x20⟩ TwoWire.powerOn 3 true (by decide)).2.1.2.2⟩

/-- The register file after `digitalWrite`: GPIO rewritten from its own prior
byte, the other ten registers as before. -/
theorem MCP23008.digitalWrite_chip (self : MCP23008) (pin state : Nat) (bus : TwoWire) :
    (self.digitalWrite pin state bus).chip =
      { bus.chip with
        GPIO := if state = HIGH then bitSet (bus.chip.GPIO % 256) pin
                else bitClear (bus.chip.GPIO % 256) pin } := by
  simp only [MCP23008.digitalWrite, MCP23008.writeRegister_eq, MCP23008.readRegister_fst,
    MCP23008.readRegister_snd, Registers.set, Registers.get]
  split_ifs <;> simp [Nat.mod_eq_of_lt (bitSet_lt _ _), Nat.mod_eq_of_lt (bitClear_lt _ _)]

/-- The level `digitalRead` returns, for a pin in 0..7. -/
theorem MCP23008.digitalRead_fst (self : MCP23008) (pin : Nat) (bus : TwoWire)
    (hpin : pin < 8) :
    (self.digitalRead pin bus).1 = if bus.chip.GPIO.testBit pin then HIGH else LOW := by
  simp only [MCP23008.digitalRead, MCP23008.readRegister_fst, Registers.get, bitRead_eq,
    testBit_mod_256]
  by_cases h : bus.chip.GPIO.testBit pin <;> simp [h, hpin]

/-- The bus state after `digitalRead` is the one its single `readRegister` leaves. -/
theorem MCP23008.digitalRead_snd (self : MCP23008) (pin : Nat) (bus : TwoWire) :
    (self.digitalRead pin bus).2 = (self.readRegister MCP23008Register.GPIO bus).2 := by
  simp only [MCP23008.digitalRead]
  split_ifs <;> rfl

/-- C3: for every pin in 0..7 and every prior register state, `digitalWrite(pin, HIGH)`
followed by `digitalRead(pin)` returns HIGH, `digitalWrite(pin, LOW)` followed by
`digitalRead(pin)` returns LOW, and after a `digitalWrite` every bit of GPIO other
than bit `pin` equals its prior value. -/
theorem digitalWrite_digitalRead (self : MCP23008) (bus : TwoWire) (pin : Nat)
    (hpin : pin < 8) :
    (self.digitalRead pin (self.digitalWrite pin HIGH bus)).1 = HIGH
    ∧ (self.digitalRead pin (self.digitalWrite pin LOW bus)).1 = LOW
    ∧ (∀ state j, j < 8 → j ≠ pin →
        (self.digitalWrite pin state bus).chip.GPIO.testBit j = bus.chip.GPIO.testBit j) := by
  have h32 : pin < 32 := by omega
  refine ⟨?_, ?_, ?_⟩
  · simp [MCP23008.digitalRead_fst, hpin, MCP23008.digitalWrite_chip, testBit_bitSet, h32]
  · simp [MCP23008.digitalRead_fst, hpin, MCP23008.digitalWrite_chip, testBit_bitClear, h32,
      HIGH, LOW]
  · intro state j hj hne
    have hne' : ¬ pin = j := fun h => hne h.symm
    by_cases hs : state = HIGH <;>
      simp [MCP23008.digitalWrite_chip, testBit_bitSet, testBit_bitClear, testBit_mod_256,
        h32, hj, hne', hs]

/-- Pin 2 on a freshly powered chip reads back HIGH after writing HIGH and LOW
after writing LOW. -/
theorem digitalWrite_digitalRead_witness :
    ((⟨0x20⟩ : MCP23008).digitalRead 2
        ((⟨0x20⟩ : MCP23008).digitalWrite 2 HIGH TwoWire.powerOn)).1 = HIGH
    ∧ ((⟨0x20⟩ : MCP23008).digitalRead 2
        ((⟨0x20⟩ : MCP23008).digitalWrite 2 LOW TwoWire.powerOn)).1 = LOW :=
  ⟨(digitalWrite_digitalRead ⟨0x20⟩ TwoWire.powerOn 2 (by decide)).1,
   (digitalWrite_digitalRead ⟨0x20⟩ TwoWire.powerOn 2 (by decide)).2.1⟩

/-- C4: for all bytes `directions`, `pullups`, `inverted` and every prior register
state, `portMode(directions, pullups, inverted)` ends with IODIR = directions,
GPPU = pullups and IPOL = inverted, and each of the other eight registers equal to
its prior value. -/
theorem portMode_registers (self : MCP23008) (bus : TwoWire) (directions pullups inverted : Nat)
    (hd : directions < 256) (hp : pullups < 256) (hi : inverted < 256) :
    (self.portMode directions pullups inverted bus).chip.IODIR = directions
    ∧ (self.portMode directions pullups inverted bus).chip.GPPU = pullups
    ∧ (self.portMode directions pullups inverted bus).chip.IPOL = inverted
    ∧ (self.portMode directions pullups inverted bus).chip.GPINTEN = bus.chip.GPINTEN
    ∧ (self.portMode directions pullups inverted bus).chip.DEFVAL = bus.chip.DEFVAL
    ∧ (self.portMode directions pullups inverted bus).chip.INTCON = bus.chip.INTCON
    ∧ (self.portMode directions pullups inverted bus).chip.IOCON = bus.chip.IOCON
    ∧ (self.portMode directions pullups inverted bus).chip.INTF = bus.chip.INTF
    ∧ (self.portMode directions pullups inverted bus).chip.INTCAP = bus.chip.INTCAP
    ∧ (self.portMode directions pullups inverted bus).chip.GPIO = bus.chip.GPIO
    ∧ (self.portMode directions pullups inverted bus).chip.OLAT = bus.chip.OLAT := by
  simp [MCP23008.portMode, MCP23008.writeRegister_eq, Registers.set, Nat.mod_eq_of_lt hd,
    Nat.mod_eq_of_lt hp, Nat.mod_eq_of_lt hi]

/-- `portMode(0b00001111, 0b11110000, 0b00000000)` on a freshly powered chip gives
IODIR = 0x0F, GPPU = 0xF0, IPOL = 0x00. -/
theorem portMode_registers_witness :
    ((⟨0x20⟩ : MCP23008).portMode 0b00001111 0b11110000 0b00000000 TwoWire.powerOn).chip.IODIR
        = 0x0F
    ∧ ((⟨0x20⟩ : MCP23008).portMode 0b00001111 0b11110000 0b00000000 TwoWire.powerOn).chip.GPPU
        = 0xF0
    ∧ ((⟨0x20⟩ : MCP23008).portMode 0b00001111 0b11110000 0b00000000 TwoWire.powerOn).chip.IPOL
        = 0x00 :=
  ⟨(portMode_registers ⟨0x20⟩ TwoWire.powerOn 0b00001111 0b11110000 0b00000000
      (by decide) (by decide) (by decide)).1,
   (portMode_registers ⟨0x20⟩ TwoWire.powerOn 0b00001111 0b11110000 0b00000000
      (by decide) (by decide) (by decide)).2.1,
   (portMode_registers ⟨0x20⟩ TwoWire.powerOn 0b00001111 0b11110000 0b00000000
      (by decide) (by decide) (by decide)).2.2.1⟩

/-- C5: from every prior register state, `init()` ends with IOCON = 0b00100000 and
GPPU = 0xFF, performs exactly two register accesses, both writes (IOCON first,
then GPPU), and leaves every other register unchanged. -/
theorem init_registers (self : MCP23008) (bus : TwoWire) :
    (self.init bus).chip.IOCON = 0b00100000
    ∧ (self.init bus).chip.GPPU = 0xFF
    ∧ (self.init bus).accesses = bus.accesses ++
        [Access.write MCP23008Register.IOCON 0b00100000,
         Access.write MCP23008Register.GPPU 0xFF]
    ∧ (∀ r : MCP23008Register, r ≠ MCP23008Register.IOCON → r ≠ MCP23008Register.GPPU →
        (self.init bus).chip.get r = bus.chip.get r) := by
  refine ⟨?_, ?_, ?_, ?_⟩
  · simp [MCP23008.init, MCP23008.writeRegister_eq, Registers.set]
  · simp [MCP23008.init, MCP23008.writeRegister_eq, Registers.set]
  · simp [MCP23008.init, MCP23008.writeRegister_eq]
  · intro r h1 h2
    cases r <;> simp_all [MCP23008.init, MCP23008.writeRegister_eq, Registers.set,
      Registers.get]

/-- C6, as stated, fails: on a freshly powered chip the register accesses of
`pinMode(0, INPUT, false)` are not the three read-then-write pairs
[read IODIR, write IODIR, read GPPU, write GPPU, read IPOL, write IPOL]. -/
theorem pinMode_trace_not_interleaved :
    ((⟨0x20⟩ : MCP23008).pinMode 0 INPUT false TwoWire.powerOn).accesses.map Access.kind
      ≠ [AccessKind.read MCP23008Register.IODIR, AccessKind.write MCP23008Register.IODIR,
         AccessKind.read MCP23008Register.GPPU, AccessKind.write MCP23008Register.GPPU,
         AccessKind.read MCP23008Register.IPOL, AccessKind.write MCP23008Register.IPOL] := by
  decide

/-- C6, amended: for every pin, mode, `inverted` and prior state, `pinMode` performs
exactly six register accesses, three reads in the order IODIR, GPPU, IPOL followed
by three writes in the same order; each write carries the byte the register
holds afterwards. -/
theorem pinMode_trace (self : MCP23008) (bus : TwoWire) (pin mode : Nat) (inverted : Bool) :
    (self.pinMode pin mode inverted bus).accesses = bus.accesses ++
      [Access.read MCP23008Register.IODIR,
       Access.read MCP23008Register.GPPU,
       Access.read MCP23008Register.IPOL,
       Access.write MCP23008Register.IODIR (self.pinMode pin mode inverted bus).chip.IODIR,
       Access.write MCP23008Register.GPPU (self.pinMode pin mode inverted bus).chip.GPPU,
       Access.write MCP23008Register.IPOL (self.pinMode pin mode inverted bus).chip.IPOL]
    ∧ ((self.pinMode pin mode inverted bus).accesses.drop bus.accesses.length).map Access.kind
      = [AccessKind.read MCP23008Register.IODIR, AccessKind.read MCP23008Register.GPPU,
         AccessKind.read MCP23008Register.IPOL, AccessKind.write MCP23008Register.IODIR,
         AccessKind.write MCP23008Register.GPPU, AccessKind.write MCP23008Register.IPOL] := by
  have h : (self.pinMode pin mode inverted bus).accesses = bus.accesses ++
      [Access.read MCP23008Register.IODIR,
       Access.read MCP23008Register.GPPU,
       Access.read MCP23008Register.IPOL,
       Access.write MCP23008Register.IODIR (self.pinMode pin mode inverted bus).chip.IODIR,
       Access.write MCP23008Register.GPPU (self.pinMode pin mode inverted bus).chip.GPPU,
       Access.write MCP23008Register.IPOL (self.pinMode pin mode inverted bus).chip.IPOL] := by
    rw [MCP23008.pinMode_chip]
    simp only [MCP23008.pinMode, MCP23008.writeRegister_eq, MCP23008.readRegister_fst,
      MCP23008.readRegister_snd, Registers.get]
    split_ifs <;>
      simp [Nat.mod_eq_of_lt (bitSet_lt _ _), Nat.mod_eq_of_lt (bitClear_lt _ _)]
  refine ⟨h, ?_⟩
  rw [h, List.drop_left]
  rfl

/-- C7: from every prior register state, `interrupt(RISING)` ends with GPINTEN = 0xFF,
INTCON = 0xFF, DEFVAL = 0x00; `interrupt(FALLING)` with GPINTEN = 0xFF, INTCON = 0xFF,
DEFVAL = 0xFF; `interrupt(CHANGE)` with GPINTEN = 0xFF, INTCON = 0x00 and DEFVAL as
before.  The register accesses of each call are writes only (three, three and
two), and no register other than GPINTEN, INTCON, DEFVAL changes. -/
theorem interrupt_registers (self : MCP23008) (k : TriggerModes) (bus : TwoWire) :
    ((self.interrupt k k.RISING bus).chip.GPINTEN = 0xFF
      ∧ (self.interrupt k k.RISING bus).chip.INTCON = 0xFF
      ∧ (self.interrupt k k.RISING bus).chip.DEFVAL = 0x00
      ∧ (self.interrupt k k.RISING bus).accesses = bus.accesses ++
          [Access.write MCP23008Register.GPINTEN 0xFF,
           Access.write MCP23008Register.INTCON 0xFF,
           Access.write MCP23008Register.DEFVAL 0x00])
    ∧ ((self.interrupt k k.FALLING bus).chip.GPINTEN = 0xFF
      ∧ (self.interrupt k k.FALLING bus).chip.INTCON = 0xFF
      ∧ (self.interrupt k k.FALLING bus).chip.DEFVAL = 0xFF
      ∧ (self.interrupt k k.FALLING bus).accesses = bus.accesses ++
          [Access.write MCP23008Register.GPINTEN 0xFF,
           Access.write MCP23008Register.INTCON 0xFF,
           Access.write MCP23008Register.DEFVAL 0xFF])
    ∧ ((self.interrupt k k.CHANGE bus).chip.GPINTEN = 0xFF
      ∧ (self.interrupt k k.CHANGE bus).chip.INTCON = 0x00
      ∧ (self.interrupt k k.CHANGE bus).chip.DEFVAL = bus.chip.DEFVAL
      ∧ (self.interrupt k k.CHANGE bus).accesses = bus.accesses ++
          [Access.write MCP23008Register.GPINTEN 0xFF,
           Access.write MCP23008Register.INTCON 0x00])
    ∧ (∀ mode, mode = k.RISING ∨ mode = k.FALLING ∨ mode = k.CHANGE →
        ∀ r : MCP23008Register, r ≠ MCP23008Register.GPINTEN →
          r ≠ MCP23008Register.INTCON → r ≠ MCP23008Register.DEFVAL →
          (self.interrupt k mode bus).chip.get r = bus.chip.get r) := by
  obtain ⟨h1, h2, h3⟩ := k.distinct
  have h1' := Ne.symm h1
  have h2' := Ne.symm h2
  have h3' := Ne.symm h3
  refine ⟨?_, ?_, ?_, ?_⟩
  · simp [MCP23008.interrupt, MCP23008.writeRegister_eq, Registers.set, h2', h3']
  · simp [MCP23008.interrupt, MCP23008.writeRegister_eq, Registers.set, h1']
  · simp [MCP23008.interrupt, MCP23008.writeRegister_eq, Registers.set]
  · intro mode hmode r hr1 hr2 hr3
    rcases hmode with rfl | rfl | rfl <;> cases r <;>
      simp_all [MCP23008.interrupt, MCP23008.writeRegister_eq, Registers.set, Registers.get]

/-- C8: for every pin in 0..7 and every register state, `digitalRead(pin)` returns
HIGH (1) if bit `pin` of the GPIO register is 1 and LOW (0) otherwise, performs
exactly one register access, a read of GPIO, and leaves all eleven registers
unchanged. -/
theorem digitalRead_pure (self : MCP23008) (bus : TwoWire) (pin : Nat) (hpin : pin < 8) :
    (HIGH = 1 ∧ LOW = 0)
    ∧ (bus.chip.GPIO.testBit pin = true → (self.digitalRead pin bus).1 = HIGH)
    ∧ (bus.chip.GPIO.testBit pin = false → (self.digitalRead pin bus).1 = LOW)
    ∧ (self.digitalRead pin bus).2.accesses
        = bus.accesses ++ [Access.read MCP23008Register.GPIO]
    ∧ (self.digitalRead pin bus).2.chip = bus.chip := by
  refine ⟨⟨rfl, rfl⟩, ?_, ?_, ?_, ?_⟩
  · intro h
    rw [MCP23008.digitalRead_fst self pin bus hpin, if_pos h]
  · intro h
    rw [MCP23008.digitalRead_fst self pin bus hpin, h]
    rfl
  · simp [MCP23008.digitalRead_snd, MCP23008.readRegister_snd]
  · simp [MCP23008.digitalRead_snd, MCP23008.readRegister_snd]

/-- On a freshly powered chip `digitalRead(3)` returns LOW and the registers keep
their power-on values. -/
theorem digitalRead_pure_witness :
    ((⟨0x20⟩ : MCP23008).digitalRead 3 TwoWire.powerOn).1 = LOW
    ∧ ((⟨0x20⟩ : MCP23008).digitalRead 3 TwoWire.powerOn).2.chip = Registers.powerOn :=
  ⟨(digitalRead_pure ⟨0x20⟩ TwoWire.powerOn 3 (by decide)).2.2.1 (by decide),
   (digitalRead_pure ⟨0x20⟩ TwoWire.powerOn 3 (by decide)).2.2.2.2⟩

/-- C9: for all bytes `d`, `p`, `i` and every prior register state, calling
`portMode(d, p, i)` twice in a row yields the same final register state as calling
it once, and each of the two calls performs the same register accesses:
[write IODIR d, write GPPU p, write IPOL i], with no read. -/
theorem portMode_idempotent (self : MCP23008) (bus : TwoWire) (d p i : Nat)
    (hd : d < 256) (hp : p < 256) (hi : i < 256) :
    (self.portMode d p i (self.portMode d p i bus)).chip = (self.portMode d p i bus).chip
    ∧ (self.portMode d p i bus).accesses = bus.accesses ++
        [Access.write MCP23008Register.IODIR d, Access.write MCP23008Register.GPPU p,
         Access.write MCP23008Register.IPOL i]
    ∧ (self.portMode d p i (self.portMode d p i bus)).accesses
        = (self.portMode d p i bus).accesses ++
        [Access.write MCP23008Register.IODIR d, Access.write MCP23008Register.GPPU p,
         Access.write MCP23008Register.IPOL i] := by
  simp [MCP23008.portMode, MCP23008.writeRegister_eq, Registers.set, Nat.mod_eq_of_lt hd,
    Nat.mod_eq_of_lt hp, Nat.mod_eq_of_lt hi]

/-- `portMode(0x0F, 0xF0, 0x00)` twice on a freshly powered chip leaves the registers
as one call does. -/
theorem portMode_idempotent_witness :
    ((⟨0x20⟩ : MCP23008).portMode 0x0F 0xF0 0x00
        ((⟨0x20⟩ : MCP23008).portMode 0x0F 0xF0 0x00 TwoWire.powerOn)).chip
      = ((⟨0x20⟩ : MCP23008).portMode 0x0F 0xF0 0x00 TwoWire.powerOn).chip :=
  (portMode_idempotent ⟨0x20⟩ TwoWire.powerOn 0x0F 0xF0 0x00
    (by decide) (by decide) (by decide)).1

/-- C10: for every register state, `clearInterrupts()` performs exactly one register
access, a read of INTCAP (address 0x08), and no write: the registers are
unchanged, the bus sees the address byte 0x08 and a request for one byte, and
the byte received is consumed without being kept. -/
theorem clearInterrupts_single_read (self : MCP23008) (bus : TwoWire) :
    MCP23008Register.INTCAP.toUInt8 = 0x08
    ∧ (self.clearInterrupts bus).accesses
        = bus.accesses ++ [Access.read MCP23008Register.INTCAP]
    ∧ (self.clearInterrupts bus).chip = bus.chip
    ∧ (self.clearInterrupts bus).wire = bus.wire ++
        [BusEvent.beginTransmission (self._deviceAddr % 256), BusEvent.write 0x08,
         BusEvent.endTransmission, BusEvent.requestFrom (self._deviceAddr % 256) 1,
         BusEvent.read]
    ∧ (self.clearInterrupts bus).rxBuffer = [] := by
  refine ⟨rfl, ?_, ?_, ?_, ?_⟩ <;>
    simp [MCP23008.clearInterrupts, MCP23008.readRegister_snd, MCP23008Register.toUInt8]

/-- The register file after `interruptMode`: IOCON rewritten from its own prior
byte, the other ten registers as before. -/
theorem MCP23008.interruptMode_chip (self : MCP23008) (intMode : MCP23008InterruptMode)
    (bus : TwoWire) :
    (self.interruptMode intMode bus).chip =
      { bus.chip with
        IOCON := if intMode = MCP23008InterruptMode.Or then
                   (bus.chip.IOCON % 256 ||| 0b01000000) % 256
                 else (bus.chip.IOCON % 256 &&& (2 ^ 32 - 1 - 0b01000000)) % 256 } := by
  simp only [MCP23008.interruptMode, MCP23008.writeRegister_eq, MCP23008.readRegister_fst,
    MCP23008.readRegister_snd, Registers.set, Registers.get, MCP23008InterruptMode.toUInt8]
  split_ifs <;> simp

/-- Setting bit 6 of a byte gives a byte. -/
theorem or_mirror_byte (c : Nat) (hc : c < 256) :
    (c % 256 ||| 0b01000000) % 256 = c ||| 0b01000000 := by
  have h : c ||| 0b01000000 < 256 := Nat.or_lt_two_pow (n := 8) hc (by decide)
  rw [Nat.mod_eq_of_lt hc, Nat.mod_eq_of_lt h]

/-- Masking a byte with the 32-bit complement of bit 6 clears bit 6 only. -/
theorem and_not_mirror_byte (c : Nat) :
    (c % 256 &&& (2 ^ 32 - 1 - 0b01000000)) % 256 = c &&& 0b10111111 := by
  have e1 : (2 ^ 32 - 1 - 0b01000000 : Nat) = 2 ^ 32 - (64 + 1) := by norm_num
  have e2 : (0b10111111 : Nat) = 2 ^ 8 - (64 + 1) := by norm_num
  apply Nat.eq_of_testBit_eq
  intro i
  rw [e1, e2, testBit_mod_256, Nat.testBit_and, Nat.testBit_and, testBit_mod_256,
    Nat.testBit_two_pow_sub_succ (by norm_num), Nat.testBit_two_pow_sub_succ (by norm_num)]
  by_cases hi : i < 8
  · have : i < 32 := by omega
    simp [hi, this]
  · simp [hi]

/-- Bit `j` of 0b01000000 is set exactly for `j = 6`. -/
theorem testBit_mirror (j : Nat) : (0b01000000 : Nat).testBit j = decide (6 = j) := by
  have e : (0b01000000 : Nat) = 2 ^ 6 := by norm_num
  rw [e, Nat.testBit_two_pow]

/-- Bit `j` of 0b10111111 is set exactly for `j < 8`, `j ≠ 6`. -/
theorem testBit_not_mirror (j : Nat) :
    (0b10111111 : Nat).testBit j = (decide (j < 8) && !decide (6 = j)) := by
  have e : (0b10111111 : Nat) = 2 ^ 8 - (2 ^ 6 + 1) := by norm_num
  rw [e, Nat.testBit_two_pow_sub_succ (by norm_num), Nat.testBit_two_pow]

/-- A byte has no bit set at position 8 or above. -/
theorem testBit_byte_high (c j : Nat) (hc : c < 256) (hj : ¬ j < 8) : c.testBit j = false := by
  have h := testBit_mod_256 c j
  rw [Nat.mod_eq_of_lt hc] at h
  rw [h]
  simp [hj]

/-- C11: for every prior byte `c` of IOCON, `interruptMode(Or)` ends with
IOCON = c | 0b01000000 and `interruptMode(Separated)` with IOCON = c & 0b10111111:
bit 6 is set, respectively cleared, the other bits of IOCON and all other
registers are unchanged, and the call performs one read then one write of
IOCON. -/
theorem interruptMode_mirror_bit (self : MCP23008) (bus : TwoWire)
    (hc : bus.chip.IOCON < 256) :
    ((self.interruptMode MCP23008InterruptMode.Or bus).chip.IOCON
        = bus.chip.IOCON ||| 0b01000000
      ∧ (self.interruptMode MCP23008InterruptMode.Separated bus).chip.IOCON
        = bus.chip.IOCON &&& 0b10111111)
    ∧ ((self.interruptMode MCP23008InterruptMode.Or bus).chip.IOCON.testBit 6 = true
      ∧ (self.interruptMode MCP23008InterruptMode.Separated bus).chip.IOCON.testBit 6 = false)
    ∧ (∀ intMode j, j ≠ 6 →
        (self.interruptMode intMode bus).chip.IOCON.testBit j = bus.chip.IOCON.testBit j)
    ∧ (∀ intMode (r : MCP23008Register), r ≠ MCP23008Register.IOCON →
        (self.interruptMode intMode bus).chip.get r = bus.chip.get r)
    ∧ (∀ intMode, (self.interruptMode intMode bus).accesses = bus.accesses ++
        [Access.read MCP23008Register.IOCON,
         Access.write MCP23008Register.IOCON (self.interruptMode intMode bus).chip.IOCON]) := by
  have hOr : (self.interruptMode MCP23008InterruptMode.Or bus).chip.IOCON
      = bus.chip.IOCON ||| 0b01000000 := by
    rw [MCP23008.interruptMode_chip]
    simp only [if_true]
    exact or_mirror_byte _ hc
  have hSep : (self.interruptMode MCP23008InterruptMode.Separated bus).chip.IOCON
      = bus.chip.IOCON &&& 0b10111111 := by
    rw [MCP23008.interruptMode_chip]
    simp only [reduceCtorEq, if_false]
    exact and_not_mirror_byte _
  refine ⟨⟨hOr, hSep⟩, ⟨?_, ?_⟩, ?_, ?_, ?_⟩
  · rw [hOr, Nat.testBit_or, testBit_mirror]
    simp
  · rw [hSep, Nat.testBit_and, testBit_not_mirror]
    simp
  · intro intMode j hj
    have hj' : ¬ 6 = j := fun h => hj h.symm
    cases intMode
    · rw [hSep, Nat.testBit_and, testBit_not_mirror]
      by_cases h8 : j < 8
      · simp [h8, hj']
      · simp [h8, testBit_byte_high _ _ hc h8]
    · rw [hOr, Nat.testBit_or, testBit_mirror]
      simp [hj']
  · intro intMode r hr
    rw [MCP23008.interruptMode_chip]
    cases r <;> simp_all [Registers.get]
  · intro intMode
    rw [MCP23008.interruptMode_chip]
    simp only [MCP23008.interruptMode, MCP23008.writeRegister_eq, MCP23008.readRegister_fst,
      MCP23008.readRegister_snd, Registers.get, MCP23008InterruptMode.toUInt8]
    split_ifs <;> simp

/-- On a freshly powered chip `interruptMode(Or)` leaves IOCON = 0b01000000. -/
theorem interruptMode_mirror_bit_witness :
    ((⟨0x20⟩ : MCP23008).interruptMode MCP23008InterruptMode.Or TwoWire.powerOn).chip.IOCON
      = 0 ||| 0b01000000 :=
  (interruptMode_mirror_bit ⟨0x20⟩ TwoWire.powerOn (by decide)).1.1

/-- C12: for every register `r` and byte `v`, `writeRegister(r, v)` makes exactly the
bus calls [beginTransmission(deviceAddr), write(addr r), write(v),
endTransmission], where `addr` is the fixed map IODIR=0x00, IPOL=0x01, GPINTEN=0x02,
DEFVAL=0x03, INTCON=0x04, IOCON=0x05, GPPU=0x06, INTF=0x07, INTCAP=0x08, GPIO=0x09,
OLAT=0x0A, an injective map into 0x00..0x0A. -/
theorem writeRegister_wire (self : MCP23008) (bus : TwoWire) (r : MCP23008Register)
    (v : Nat) (ha : self._deviceAddr < 256) (hv : v < 256) :
    (self.writeRegister r v bus).wire = bus.wire ++
        [BusEvent.beginTransmission self._deviceAddr, BusEvent.write r.toUInt8,
         BusEvent.write v, BusEvent.endTransmission]
    ∧ (MCP23008Register.IODIR.toUInt8 = 0x00 ∧ MCP23008Register.IPOL.toUInt8 = 0x01
      ∧ MCP23008Register.GPINTEN.toUInt8 = 0x02 ∧ MCP23008Register.DEFVAL.toUInt8 = 0x03
      ∧ MCP23008Register.INTCON.toUInt8 = 0x04 ∧ MCP23008Register.IOCON.toUInt8 = 0x05
      ∧ MCP23008Register.GPPU.toUInt8 = 0x06 ∧ MCP23008Register.INTF.toUInt8 = 0x07
      ∧ MCP23008Register.INTCAP.toUInt8 = 0x08 ∧ MCP23008Register.GPIO.toUInt8 = 0x09
      ∧ MCP23008Register.OLAT.toUInt8 = 0x0A)
    ∧ Function.Injective MCP23008Register.toUInt8
    ∧ (∀ r' : MCP23008Register, r'.toUInt8 ≤ 0x0A) := by
  refine ⟨?_, ⟨rfl, rfl, rfl, rfl, rfl, rfl, rfl, rfl, rfl, rfl, rfl⟩, ?_, ?_⟩
  · have hr : r.toUInt8 % 256 = r.toUInt8 := by cases r <;> rfl
    rw [MCP23008.writeRegister_eq]
    simp [Nat.mod_eq_of_lt ha, Nat.mod_eq_of_lt hv, hr]
  · intro a b hab
    cases a <;> cases b <;> first | rfl | (exact absurd hab (by decide))
  · intro r'
    cases r' <;> decide

/-- The bus calls of `writeRegister(GPPU, 0xFF)` for the chip at address 0x20. -/
theorem writeRegister_wire_witness :
    ((⟨0x20⟩ : MCP23008).writeRegister MCP23008Register.GPPU 0xFF TwoWire.powerOn).wire
      = TwoWire.powerOn.wire ++
        [BusEvent.beginTransmission 0x20, BusEvent.write 0x06, BusEvent.write 0xFF,
         BusEvent.endTransmission] :=
  (writeRegister_wire ⟨0x20⟩ TwoWire.powerOn MCP23008Register.GPPU 0xFF
    (by decide) (by decide)).1

/-- C13: for every register `r`, `readRegister(r)` makes exactly the bus calls
[beginTransmission(deviceAddr), write(addr r), endTransmission,
requestFrom(deviceAddr, 1), read], a write phase carrying only the register
address followed by a request for exactly one byte, and returns the byte that
single read delivers: the bus hands out the content of register `r`, that is
the value returned, and no received byte is left over. -/
theorem readRegister_wire (self : MCP23008) (bus : TwoWire) (r : MCP23008Register)
    (ha : self._deviceAddr < 256) (hr : bus.chip.get r < 256) :
    (self.readRegister r bus).2.wire = bus.wire ++
        [BusEvent.beginTransmission self._deviceAddr, BusEvent.write r.toUInt8,
         BusEvent.endTransmission, BusEvent.requestFrom self._deviceAddr 1, BusEvent.read]
    ∧ (TwoWire.read (TwoWire.requestFrom self._deviceAddr 1 (TwoWire.endTransmission
        (TwoWire.write r.toUInt8 (TwoWire.beginTransmission self._deviceAddr
          (TwoWire.observe (Access.read r) bus)))))).1 = (bus.chip.get r : Int)
    ∧ (self.readRegister r bus).1 = bus.chip.get r
    ∧ (self.readRegister r bus).2.rxBuffer = []
    ∧ (self.readRegister r bus).2.chip = bus.chip := by
  have hr' : r.toUInt8 % 256 = r.toUInt8 := by cases r <;> rfl
  rw [MCP23008.readRegister_snd, MCP23008.readRegister_fst]
  refine ⟨?_, ?_, ?_, ?_, ?_⟩
  · simp [Nat.mod_eq_of_lt ha, hr']
  · simp [TwoWire.observe, TwoWire.beginTransmission, TwoWire.write, TwoWire.endTransmission,
      TwoWire.requestFrom, TwoWire.read, Registers.load, MCP23008Register.ofUInt8_toUInt8,
      Nat.mod_eq_of_lt hr]
  · exact Nat.mod_eq_of_lt hr
  · rfl
  · rfl

/-- Reading IODIR of a freshly powered chip at address 0x20 returns 0xFF. -/
theorem readRegister_wire_witness :
    ((⟨0x20⟩ : MCP23008).readRegister MCP23008Register.IODIR TwoWire.powerOn).1 = 0xFF :=
  (readRegister_wire ⟨0x20⟩ TwoWire.powerOn MCP23008Register.IODIR
    (by decide) (by decide)).2.2.1

/-- C14: for every byte `v` and every prior register state, writing the port with
`writePort(v)` or `write(v)` and then reading it with `readPort()` or `read()`
returns exactly `v`; the two writers are the same state transformer (one write
of GPIO carrying `v` unmasked, no read) and the two readers are the same (one
read of GPIO, no write). -/
theorem port_write_read (self : MCP23008) (bus : TwoWire) (v : Nat) (hv : v < 256) :
    ((self.readPort (self.writePort v bus)).1 = v
      ∧ (self.read (self.writePort v bus)).1 = v
      ∧ (self.readPort (self.write v bus)).1 = v
      ∧ (self.read (self.write v bus)).1 = v)
    ∧ (MCP23008.writePort = MCP23008.write ∧ MCP23008.readPort = MCP23008.read)
    ∧ ((self.writePort v bus).accesses
          = bus.accesses ++ [Access.write MCP23008Register.GPIO v]
      ∧ (self.writePort v bus).chip.GPIO = v
      ∧ (∀ r : MCP23008Register, r ≠ MCP23008Register.GPIO →
          (self.writePort v bus).chip.get r = bus.chip.get r))
    ∧ ((self.readPort bus).2.accesses = bus.accesses ++ [Access.read MCP23008Register.GPIO]
      ∧ (self.readPort bus).2.chip = bus.chip) := by
  refine ⟨⟨?_, ?_, ?_, ?_⟩, ⟨rfl, rfl⟩, ⟨?_, ?_, ?_⟩, ?_, ?_⟩
  · simp [MCP23008.readPort, MCP23008.writePort, MCP23008.readRegister_fst,
      MCP23008.writeRegister_eq, Registers.set, Registers.get, Nat.mod_eq_of_lt hv]
  · simp [MCP23008.read, MCP23008.writePort, MCP23008.readRegister_fst,
      MCP23008.writeRegister_eq, Registers.set, Registers.get, Nat.mod_eq_of_lt hv]
  · simp [MCP23008.readPort, MCP23008.write, MCP23008.readRegister_fst,
      MCP23008.writeRegister_eq, Registers.set, Registers.get, Nat.mod_eq_of_lt hv]
  · simp [MCP23008.read, MCP23008.write, MCP23008.readRegister_fst,
      MCP23008.writeRegister_eq, Registers.set, Registers.get, Nat.mod_eq_of_lt hv]
  · simp [MCP23008.writePort, MCP23008.writeRegister_eq, Nat.mod_eq_of_lt hv]
  · simp [MCP23008.writePort, MCP23008.writeRegister_eq, Registers.set, Nat.mod_eq_of_lt hv]
  · intro r hr
    cases r <;> simp_all [MCP23008.writePort, MCP23008.writeRegister_eq, Registers.set,
      Registers.get]
  · simp [MCP23008.readPort, MCP23008.readRegister_snd]
  · simp [MCP23008.readPort, MCP23008.readRegister_snd]

/-- Writing 0xA5 to the port of a freshly powered chip and reading it returns 0xA5. -/
theorem port_write_read_witness :
    ((⟨0x20⟩ : MCP23008).readPort ((⟨0x20⟩ : MCP23008).writePort 0xA5 TwoWire.powerOn)).1
      = 0xA5 :=
  (port_write_read ⟨0x20⟩ TwoWire.powerOn 0xA5 (by decide)).1.1

/-- C15, evaluated on the code: the byte `init()` leaves in IOCON is 0b00100000, whose
bit 2 (ODR) is 0, not 1; bit 1 (INTPOL) and bit 6 (MIRROR) are 0 and bit 5
(SEQOP) is 1. -/
theorem init_iocon_bits (self : MCP23008) (bus : TwoWire) :
    (self.init bus).chip.IOCON = 0b00100000
    ∧ (self.init bus).chip.IOCON.testBit 2 = false
    ∧ (self.init bus).chip.IOCON.testBit 1 = false
    ∧ (self.init bus).chip.IOCON.testBit 6 = false
    ∧ (self.init bus).chip.IOCON.testBit 5 = true := by
  have h : (self.init bus).chip.IOCON = 0b00100000 := by
    simp [MCP23008.init, MCP23008.writeRegister_eq, Registers.set]
  rw [h]
  decide

/-- C16: from every prior register state, `disableInterrupt()` ends with
GPINTEN = 0x00, performs exactly one register access, a write, and leaves every
other register unchanged; in particular INTCON and DEFVAL stay as an earlier
`interrupt(mode)` configured them. -/
theorem disableInterrupt_registers (self : MCP23008) (bus : TwoWire) :
    (self.disableInterrupt bus).chip.GPINTEN = 0x00
    ∧ (self.disableInterrupt bus).accesses
        = bus.accesses ++ [Access.write MCP23008Register.GPINTEN 0x00]
    ∧ (∀ r : MCP23008Register, r ≠ MCP23008Register.GPINTEN →
        (self.disableInterrupt bus).chip.get r = bus.chip.get r)
    ∧ (∀ (k : TriggerModes) (mode : Nat),
        (self.disableInterrupt (self.interrupt k mode bus)).chip.INTCON
            = (self.interrupt k mode bus).chip.INTCON
          ∧ (self.disableInterrupt (self.interrupt k mode bus)).chip.DEFVAL
            = (self.interrupt k mode bus).chip.DEFVAL) := by
  refine ⟨?_, ?_, ?_, ?_⟩
  · simp [MCP23008.disableInterrupt, MCP23008.writeRegister_eq, Registers.set]
  · simp [MCP23008.disableInterrupt, MCP23008.writeRegister_eq]
  · intro r hr
    cases r <;> simp_all [MCP23008.disableInterrupt, MCP23008.writeRegister_eq, Registers.set,
      Registers.get]
  · intro k mode
    simp [MCP23008.disableInterrupt, MCP23008.writeRegister_eq, Registers.set]

/-- C17: `digitalWrite` treats only the exact value HIGH (1) as high: for every pin in
0..7 and every state byte `s` other than 1, `digitalWrite(pin, s)` clears bit `pin`
of GPIO, and a following `digitalRead(pin)` returns LOW. -/
theorem digitalWrite_only_high (self : MCP23008) (bus : TwoWire) (pin s : Nat)
    (hpin : pin < 8) (_hs : s < 256) (hne : s ≠ 1) :
    HIGH = 1
    ∧ (self.digitalWrite pin s bus).chip.GPIO.testBit pin = false
    ∧ (self.digitalRead pin (self.digitalWrite pin s bus)).1 = LOW := by
  have h32 : pin < 32 := by omega
  have hs : ¬ s = HIGH := hne
  have hbit : (self.digitalWrite pin s bus).chip.GPIO.testBit pin = false := by
    simp [MCP23008.digitalWrite_chip, hs, testBit_bitClear, h32]
  refine ⟨rfl, hbit, ?_⟩
  rw [MCP23008.digitalRead_fst self pin _ hpin, hbit]
  rfl

/-- Writing the state 0xFF to pin 2 of a port that reads all ones leaves pin 2 LOW. -/
theorem digitalWrite_only_high_witness :
    ((⟨0x20⟩ : MCP23008).digitalRead 2 ((⟨0x20⟩ : MCP23008).digitalWrite 2 0xFF
        ((⟨0x20⟩ : MCP23008).writePort 0xFF TwoWire.powerOn))).1 = LOW :=
  (digitalWrite_only_high ⟨0x20⟩ ((⟨0x20⟩ : MCP23008).writePort 0xFF TwoWire.powerOn) 2 0xFF
    (by decide) (by decide) (by decide)).2.2

/-- C18: for every mode byte `m` that is none of CHANGE, FALLING, RISING, `interrupt(m)`
still writes GPINTEN = 0xFF and performs no other register access: INTCON and
DEFVAL, like every register but GPINTEN, hold what they held before. -/
theorem interrupt_unknown_mode (self : MCP23008) (k : TriggerModes) (bus : TwoWire) (m : Nat)
    (_hm : m < 256) (h1 : m ≠ k.CHANGE) (h2 : m ≠ k.FALLING) (h3 : m ≠ k.RISING) :
    (self.interrupt k m bus).chip.GPINTEN = 0xFF
    ∧ (self.interrupt k m bus).accesses
        = bus.accesses ++ [Access.write MCP23008Register.GPINTEN 0xFF]
    ∧ (self.interrupt k m bus).chip.INTCON = bus.chip.INTCON
    ∧ (self.interrupt k m bus).chip.DEFVAL = bus.chip.DEFVAL
    ∧ (∀ r : MCP23008Register, r ≠ MCP23008Register.GPINTEN →
        (self.interrupt k m bus).chip.get r = bus.chip.get r) := by
  refine ⟨?_, ?_, ?_, ?_, ?_⟩
  · simp [MCP23008.interrupt, MCP23008.writeRegister_eq, Registers.set, h1, h2, h3]
  · simp [MCP23008.interrupt, MCP23008.writeRegister_eq, h1, h2, h3]
  · simp [MCP23008.interrupt, MCP23008.writeRegister_eq, Registers.set, h1, h2, h3]
  · simp [MCP23008.interrupt, MCP23008.writeRegister_eq, Registers.set, h1, h2, h3]
  · intro r hr
    cases r <;> simp_all [MCP23008.interrupt, MCP23008.writeRegister_eq, Registers.set,
      Registers.get]

/-- With the AVR constants, `interrupt(0)` on a freshly powered chip enables all
eight pins and makes one write only. -/
theorem interrupt_unknown_mode_witness :
    ((⟨0x20⟩ : MCP23008).interrupt TriggerModes.avr 0 TwoWire.powerOn).chip.GPINTEN = 0xFF
    ∧ ((⟨0x20⟩ : MCP23008).interrupt TriggerModes.avr 0 TwoWire.powerOn).accesses
      = TwoWire.powerOn.accesses ++ [Access.write MCP23008Register.GPINTEN 0xFF] :=
  ⟨(interrupt_unknown_mode ⟨0x20⟩ TriggerModes.avr TwoWire.powerOn 0
      (by decide) (by decide) (by decide) (by decide)).1,
   (interrupt_unknown_mode ⟨0x20⟩ TriggerModes.avr TwoWire.powerOn 0
      (by decide) (by decide) (by decide) (by decide)).2.1⟩

/-- `bitSet` on a bit position 8..31 leaves a byte as it is. -/
theorem bitSet_out_of_range (v bit : Nat) (hv : v < 256) (h8 : 8 ≤ bit) (h32 : bit < 32) :
    bitSet v bit = v := by
  apply Nat.eq_of_testBit_eq
  intro i
  rw [testBit_bitSet v bit i h32]
  by_cases hi : i < 8
  · have : ¬ bit = i := by omega
    simp [hi, this]
  · simp [hi, testBit_byte_high v i hv hi]

/-- `bitClear` on a bit position 8..31 leaves a byte as it is. -/
theorem bitClear_out_of_range (v bit : Nat) (hv : v < 256) (h8 : 8 ≤ bit) (h32 : bit < 32) :
    bitClear v bit = v := by
  apply Nat.eq_of_testBit_eq
  intro i
  rw [testBit_bitClear v bit i h32]
  by_cases hi : i < 8
  · have : ¬ bit = i := by omega
    simp [hi, this]
  · simp [hi, testBit_byte_high v i hv hi]

/-- `bitRead` on a bit position 8 or above of a byte gives 0. -/
theorem bitRead_out_of_range (v bit : Nat) (hv : v < 256) (h8 : 8 ≤ bit) :
    bitRead v bit = 0 := by
  rw [bitRead_eq, testBit_byte_high v bit hv (by omega)]
  rfl

/-- C19: out-of-range pins do not corrupt other pins.  For every pin with
8 ≤ pin < 32 and registers holding bytes, `pinMode(pin, mode, inverted)` writes
IODIR, GPPU and IPOL back with their prior values, `digitalWrite(pin, state)`
writes GPIO back with its prior value, so the register file is unchanged by
either, and `digitalRead(pin)` returns LOW, for every mode, inverted, state. -/
theorem out_of_range_pin (self : MCP23008) (bus : TwoWire) (pin : Nat)
    (h8 : 8 ≤ pin) (h32 : pin < 32)
    (hdir : bus.chip.IODIR < 256) (hpull : bus.chip.GPPU < 256) (hpol : bus.chip.IPOL < 256)
    (hgpio : bus.chip.GPIO < 256) :
    (∀ mode inverted,
        (self.pinMode pin mode inverted bus).accesses = bus.accesses ++
          [Access.read MCP23008Register.IODIR, Access.read MCP23008Register.GPPU,
           Access.read MCP23008Register.IPOL,
           Access.write MCP23008Register.IODIR bus.chip.IODIR,
           Access.write MCP23008Register.GPPU bus.chip.GPPU,
           Access.write MCP23008Register.IPOL bus.chip.IPOL]
        ∧ (self.pinMode pin mode inverted bus).chip = bus.chip)
    ∧ (∀ state,
        (self.digitalWrite pin state bus).accesses = bus.accesses ++
          [Access.read MCP23008Register.GPIO,
           Access.write MCP23008Register.GPIO bus.chip.GPIO]
        ∧ (self.digitalWrite pin state bus).chip = bus.chip)
    ∧ (self.digitalRead pin bus).1 = LOW := by
  refine ⟨?_, ?_, ?_⟩
  · intro mode inverted
    constructor
    · simp only [MCP23008.pinMode, MCP23008.writeRegister_eq, MCP23008.readRegister_fst,
        MCP23008.readRegister_snd, Registers.get, Nat.mod_eq_of_lt hdir,
        Nat.mod_eq_of_lt hpull, Nat.mod_eq_of_lt hpol,
        bitSet_out_of_range _ pin hdir h8 h32, bitClear_out_of_range _ pin hdir h8 h32,
        bitSet_out_of_range _ pin hpull h8 h32, bitClear_out_of_range _ pin hpull h8 h32,
        bitSet_out_of_range _ pin hpol h8 h32, bitClear_out_of_range _ pin hpol h8 h32]
      simp [Nat.mod_eq_of_lt hdir, Nat.mod_eq_of_lt hpull, Nat.mod_eq_of_lt hpol]
    · simp only [MCP23008.pinMode_chip, Nat.mod_eq_of_lt hdir,
        Nat.mod_eq_of_lt hpull, Nat.mod_eq_of_lt hpol,
        bitSet_out_of_range _ pin hdir h8 h32, bitClear_out_of_range _ pin hdir h8 h32,
        bitSet_out_of_range _ pin hpull h8 h32, bitClear_out_of_range _ pin hpull h8 h32,
        bitSet_out_of_range _ pin hpol h8 h32, bitClear_out_of_range _ pin hpol h8 h32]
      simp
  · intro state
    constructor
    · simp only [MCP23008.digitalWrite, MCP23008.writeRegister_eq, MCP23008.readRegister_fst,
        MCP23008.readRegister_snd, Registers.get, Nat.mod_eq_of_lt hgpio,
        bitSet_out_of_range _ pin hgpio h8 h32, bitClear_out_of_range _ pin hgpio h8 h32]
      simp [Nat.mod_eq_of_lt hgpio]
    · simp only [MCP23008.digitalWrite_chip, Nat.mod_eq_of_lt hgpio,
        bitSet_out_of_range _ pin hgpio h8 h32, bitClear_out_of_range _ pin hgpio h8 h32]
      simp
  · simp only [MCP23008.digitalRead, MCP23008.readRegister_fst, Registers.get,
      Nat.mod_eq_of_lt hgpio, bitRead_out_of_range _ pin hgpio h8]
    simp

/-- Pin 9 on a freshly powered chip: `pinMode(9, OUTPUT, true)` leaves the registers
as they were and `digitalRead(9)` returns LOW. -/
theorem out_of_range_pin_witness :
    ((⟨0x20⟩ : MCP23008).pinMode 9 OUTPUT true TwoWire.powerOn).chip = TwoWire.powerOn.chip
    ∧ ((⟨0x20⟩ : MCP23008).digitalRead 9 TwoWire.powerOn).1 = LOW :=
  ⟨((out_of_range_pin ⟨0x20⟩ TwoWire.powerOn 9 (by decide) (by decide) (by decide)
      (by decide) (by decide) (by decide)).1 OUTPUT true).2,
   (out_of_range_pin ⟨0x20⟩ TwoWire.powerOn 9 (by decide) (by decide) (by decide)
      (by decide) (by decide) (by decide)).2.2⟩

/-- Setting or clearing bit `p` and then bit `q ≠ p` of a register byte gives the
same byte as doing it in the other order. -/
theorem bit_update_comm (a b : Prop) [Decidable a] [Decidable b] (v p q : Nat)
    (hp : p < 32) (hq : q < 32) (hpq : p ≠ q) :
    (if b then bitSet ((if a then bitSet (v % 256) p else bitClear (v % 256) p) % 256) q
      else bitClear ((if a then bitSet (v % 256) p else bitClear (v % 256) p) % 256) q)
    = (if a then bitSet ((if b then bitSet (v % 256) q else bitClear (v % 256) q) % 256) p
      else bitClear ((if b then bitSet (v % 256) q else bitClear (v % 256) q) % 256) p) := by
  apply Nat.eq_of_testBit_eq
  intro i
  by_cases h1 : p = i
  · have h2 : ¬ q = i := fun h => hpq (h1.trans h.symm)
    by_cases h8 : i < 8 <;> split_ifs <;>
      simp only [testBit_bitSet _ _ _ hp, testBit_bitSet _ _ _ hq, testBit_bitClear _ _ _ hp,
        testBit_bitClear _ _ _ hq, testBit_mod_256] <;>
      simp [h1, h2, h8]
  · by_cases h2 : q = i <;> by_cases h8 : i < 8 <;> split_ifs <;>
      simp only [testBit_bitSet _ _ _ hp, testBit_bitSet _ _ _ hq, testBit_bitClear _ _ _ hp,
        testBit_bitClear _ _ _ hq, testBit_mod_256] <;>
      simp [h1, h2, h8]

/-- Setting or clearing bit `p` of a register byte twice is the same as once. -/
theorem bit_update_idem (a : Prop) [Decidable a] (v p : Nat) (hp : p < 32) :
    (if a then bitSet ((if a then bitSet (v % 256) p else bitClear (v % 256) p) % 256) p
      else bitClear ((if a then bitSet (v % 256) p else bitClear (v % 256) p) % 256) p)
    = (if a then bitSet (v % 256) p else bitClear (v % 256) p) := by
  apply Nat.eq_of_testBit_eq
  intro i
  by_cases h1 : p = i <;> by_cases h8 : i < 8 <;> split_ifs <;>
    simp only [testBit_bitSet _ _ _ hp, testBit_bitClear _ _ _ hp, testBit_mod_256] <;>
    simp [h1, h8]

/-- C20: `pinMode` calls on distinct pins commute and a repeated call is idempotent.
For all pins `p ≠ q` in 0..7, all modes and inverted flags and every prior register
state, `pinMode(p, m1, i1)` then `pinMode(q, m2, i2)` gives the same final
registers as the two calls in the other order, and `pinMode(p, m1, i1)` applied
twice gives the same final registers as applied once. -/
theorem pinMode_comm_idem (self : MCP23008) (bus : TwoWire) (p q m1 m2 : Nat) (i1 i2 : Bool)
    (hp : p < 8) (hq : q < 8) (hpq : p ≠ q) :
    (self.pinMode q m2 i2 (self.pinMode p m1 i1 bus)).chip
        = (self.pinMode p m1 i1 (self.pinMode q m2 i2 bus)).chip
    ∧ (self.pinMode p m1 i1 (self.pinMode p m1 i1 bus)).chip
        = (self.pinMode p m1 i1 bus).chip := by
  have hp32 : p < 32 := by omega
  have hq32 : q < 32 := by omega
  constructor
  · rw [MCP23008.pinMode_chip self q m2 i2, MCP23008.pinMode_chip self p m1 i1,
      MCP23008.pinMode_chip self p m1 i1, MCP23008.pinMode_chip self q m2 i2]
    simp only [Registers.mk.injEq, true_and, and_true]
    exact ⟨bit_update_comm _ _ _ p q hp32 hq32 hpq, bit_update_comm _ _ _ p q hp32 hq32 hpq,
      bit_update_comm _ _ _ p q hp32 hq32 hpq⟩
  · rw [MCP23008.pinMode_chip self p m1 i1 (self.pinMode p m1 i1 bus),
      MCP23008.pinMode_chip self p m1 i1 bus]
    simp only [Registers.mk.injEq, true_and, and_true]
    exact ⟨bit_update_idem _ _ p hp32, bit_update_idem _ _ p hp32, bit_update_idem _ _ p hp32⟩

/-- On a freshly powered chip, `pinMode(3, OUTPUT, true)` and
`pinMode(5, INPUT_PULLUP, false)` give the same registers in either order. -/
theorem pinMode_comm_idem_witness :
    ((⟨0x20⟩ : MCP23008).pinMode 5 INPUT_PULLUP false
        ((⟨0x20⟩ : MCP23008).pinMode 3 OUTPUT true TwoWire.powerOn)).chip
      = ((⟨0x20⟩ : MCP23008).pinMode 3 OUTPUT true
        ((⟨0x20⟩ : MCP23008).pinMode 5 INPUT_PULLUP false TwoWire.powerOn)).chip :=
  (pinMode_comm_idem ⟨0x20⟩ TwoWire.powerOn 3 5 OUTPUT INPUT_PULLUP true false
    (by decide) (by decide) (by decide)).1
